import Mathlib

/-!
Verification of the fab-scrapper program (src/main.rs) against its
natural-language specification.

The program is a sequential read-fetch-write loop: it loads set codes
from a fixed input file, issues one HTTP GET per code, writes each
response body to a txt and a json file, accumulates successful sets in a
HashMap, then writes a hand-built combined JSON string and a metadata
report.

The shallow embedding below models the effectful boundary with an
environment record: the input file is an `Option (List String)` (`none`
means missing/unopenable), HTTP is an oracle from request URL to
`Except String String` (errors cover both transport failures and non-2xx
statuses, matching `fetch_set_json_data`), and each `save_data_to_file`
or `fs::create_dir` call consults a boolean oracle keyed by path. The
`HashMap<String, String>` is modelled as an association list with
replace-or-append insertion (`insertAL`); its unspecified iteration
order is modelled by an arbitrary reordering function `iterOrder`,
constrained to be a permutation where a claim needs it.

Rust's `str::trim` is modelled by `trim` below, dropping whitespace
characters from both ends of the character list (the model's whitespace
class is ASCII space/tab/newline/carriage-return; the claims never
depend on exotic Unicode whitespace).
-/

namespace FabScrapper

/-- Whitespace test used by the model of Rust's `str::trim`. -/
def isWS (c : Char) : Bool :=
  c == ' ' || c == '\t' || c == '\n' || c == '\r'

/-- Trim whitespace from both ends of a character list. -/
def trimChars (l : List Char) : List Char :=
  ((l.dropWhile isWS).reverse.dropWhile isWS).reverse

/-- Model of Rust's `str::trim`. -/
def trim (s : String) : String :=
  ⟨trimChars s.data⟩

/-- `const BASE_API_URL` from src/main.rs. -/
def BASE_API_URL : String := "https://cards.fabtcg.com/api/search/v1/cards/?set_code="

/-- `const SET_CODES_FILENAME` from src/main.rs. -/
def SET_CODES_FILENAME : String := "sets_codes.txt"

/-- Error message produced by `read_set_codes` when the file is missing. -/
def missingFileMsg : String :=
  "Error: Input file 'sets_codes.txt' not found. Please create it in the project root."

/-- Model of `read_set_codes`: the file is `none` when absent (the
`Path::new(filename).exists()` check fails, or `File::open` fails),
otherwise the list of its lines. The loop trims each line and keeps the
non-empty results in order. -/
def read_set_codes (file : Option (List String)) : Except String (List String) :=
  match file with
  | none => .error missingFileMsg
  | some lines =>
    .ok (lines.foldl
      (fun codes line =>
        let lineContent := trim line
        if lineContent == "" then codes else codes ++ [lineContent])
      [])

/-- The loader's result, characterized as filter-then-map. -/
def loadedCodes (lines : List String) : List String :=
  (lines.filter (fun l => !(trim l == ""))).map trim

/-- Model of `fetch_set_json_data`: builds the request URL by
concatenation with the trimmed code and consults the HTTP oracle, which
folds the status check into its `Except`. -/
def fetch_set_json_data (httpGet : String → Except String String) (set_code : String) :
    Except String String :=
  httpGet (BASE_API_URL ++ trim set_code)

/-- Replace-or-append insertion on an association list: the model of
`HashMap::insert` (as observed through lookup, size and iteration up to
permutation). -/
def insertAL (k v : String) : List (String × String) → List (String × String)
  | [] => [(k, v)]
  | p :: rest => if p.1 == k then (k, v) :: rest else p :: insertAL k v rest

/-- Association-list lookup, the observation model of `HashMap::get`. -/
def lookupAL (k : String) : List (String × String) → Option String
  | [] => none
  | p :: rest => if p.1 == k then some p.2 else lookupAL k rest

/-! ### Basic lemmas about trim and the loader -/

theorem dropWhile_self (p : α → Bool) (l : List α) :
    (l.dropWhile p).dropWhile p = l.dropWhile p := by
  induction l with
  | nil => rfl
  | cons a t ih =>
    by_cases h : p a
    · simp [List.dropWhile_cons, h, ih]
    · simp [List.dropWhile_cons, h]

theorem head_dropWhile_false (p : α → Bool) (l : List α) (x : α) (xs : List α)
    (h : l.dropWhile p = x :: xs) : p x = false := by
  induction l with
  | nil => simp at h
  | cons a t ih =>
    by_cases hpa : p a
    · exact ih (by simpa [List.dropWhile_cons, hpa] using h)
    · rw [List.dropWhile_cons, if_neg (by simp [hpa])] at h
      cases h
      simpa using hpa

theorem dropWhile_suffix (p : α → Bool) (l : List α) :
    ∃ s, s ++ l.dropWhile p = l := by
  induction l with
  | nil => exact ⟨[], rfl⟩
  | cons a t ih =>
    by_cases h : p a
    · obtain ⟨s, hs⟩ := ih
      exact ⟨a :: s, by simp [List.dropWhile_cons, h, hs]⟩
    · exact ⟨[], by simp [List.dropWhile_cons, h]⟩

theorem trimChars_idem (l : List Char) : trimChars (trimChars l) = trimChars l := by
  unfold trimChars
  set d := l.dropWhile isWS with hd
  -- the trimmed list, as a prefix of `d`
  set r := ((d.reverse.dropWhile isWS).reverse : List Char) with hr
  have hpre : ∃ t, r ++ t = d := by
    obtain ⟨s, hs⟩ := dropWhile_suffix isWS d.reverse
    refine ⟨s.reverse, ?_⟩
    have := congrArg List.reverse hs
    simpa [hr] using this
  have hdrop : r.dropWhile isWS = r := by
    cases hrc : r with
    | nil => simp
    | cons x xs =>
      have hxd : ∃ t, d = x :: t := by
        obtain ⟨t, ht⟩ := hpre
        rw [hrc] at ht
        exact ⟨xs ++ t, ht.symm⟩
      obtain ⟨t, ht⟩ := hxd
      have hx : isWS x = false := head_dropWhile_false isWS l x t (by rw [← hd, ht])
      simp [List.dropWhile_cons, hx]
  rw [hdrop]
  have : r.reverse = d.reverse.dropWhile isWS := by simp [hr]
  rw [this, dropWhile_self]

theorem trim_idem (s : String) : trim (trim s) = trim s := by
  unfold trim
  exact congrArg String.mk (trimChars_idem s.data)

theorem read_set_codes_foldl (lines : List String) (acc : List String) :
    lines.foldl
      (fun codes line =>
        let lineContent := trim line
        if lineContent == "" then codes else codes ++ [lineContent])
      acc = acc ++ loadedCodes lines := by
  induction lines generalizing acc with
  | nil => simp [loadedCodes]
  | cons a t ih =>
    by_cases h : trim a == ""
    · simp only [List.foldl_cons, h, if_pos, ih, loadedCodes, List.filter_cons]
      simp [h]
    · simp only [List.foldl_cons, h, if_neg, ih, loadedCodes, List.filter_cons]
      simp [h, List.append_assoc]

theorem read_set_codes_some (lines : List String) :
    read_set_codes (some lines) = .ok (loadedCodes lines) := by
  simp only [read_set_codes]
  rw [read_set_codes_foldl]
  simp

/-! ### The effect environment and the run model -/

/-- The effectful boundary of the program, as oracles.

* `file` — contents of `sets_codes.txt` (`none` = missing/unopenable);
* `httpGet` — one blocking GET keyed by full URL, `Except` folding in the
  non-2xx status check of `fetch_set_json_data`;
* `writeOk` — whether `save_data_to_file` succeeds for a given path;
* `dirExists` / `createOk` — the `Path::exists` check and the outcome of
  `fs::create_dir` for a given directory path;
* `launchTime` — the formatted `Local::now()` timestamp captured at start;
* `iterOrder` — the unspecified iteration order of the `HashMap`, as a
  reordering applied to the association list before the combined-file
  loop iterates it. -/
structure Env where
  file : Option (List String)
  httpGet : String → Except String String
  writeOk : String → Bool
  dirExists : String → Bool
  createOk : String → Bool
  launchTime : String
  iterOrder : List (String × String) → List (String × String)

/-- `base_output_dir` in main. -/
def base_output_dir : String := "script_generated_card_data"

/-- `txt_output_dir` in main. -/
def txt_output_dir : String := "script_generated_card_data/txt"

/-- `json_output_dir` in main. -/
def json_output_dir : String := "script_generated_card_data/json"

/-- Per-set txt filename: txt_output_dir, slash, trimmed code, `_cards.txt`. -/
def txt_path (set_code : String) : String :=
  txt_output_dir ++ "/" ++ trim set_code ++ "_cards.txt"

/-- Per-set json filename: json_output_dir, slash, trimmed code, `_cards.json`. -/
def json_path (set_code : String) : String :=
  json_output_dir ++ "/" ++ trim set_code ++ "_cards.json"

/-- `all_sets_combined.txt` path. -/
def combined_txt_path : String := txt_output_dir ++ "/all_sets_combined.txt"

/-- `all_sets_combined.json` path. -/
def combined_json_path : String := json_output_dir ++ "/all_sets_combined.json"

/-- `script_metadata.txt` path. -/
def metadata_path : String := base_output_dir ++ "/script_metadata.txt"

/-- Observable state threaded through the loop: the `all_sets_data`
HashMap (as an association list), plus traces of the fetch calls issued,
every `save_data_to_file` call with its arguments, and the successful
writes among them. -/
structure LoopState where
  allSetsData : List (String × String)
  fetchCalls : List String
  writeAttempts : List (String × String)
  writesSucceeded : List (String × String)

/-- The initial loop state: empty map, no effects yet. -/
def initState : LoopState := ⟨[], [], [], []⟩

/-- One `save_data_to_file(path, content)` call: always recorded as an
attempt, recorded as a success when the write oracle allows it.
A failed write is only logged in the source, so it changes nothing else. -/
def attemptWrite (env : Env) (st : LoopState) (path content : String) : LoopState :=
  let st' := { st with writeAttempts := st.writeAttempts ++ [(path, content)] }
  if env.writeOk path then
    { st' with writesSucceeded := st'.writesSucceeded ++ [(path, content)] }
  else st'

/-- One iteration of the `for set_code in &set_codes` loop: fetch, then
on success attempt the txt write and the json write, and insert into
`all_sets_data` when at least one write succeeded. The trailing
`thread::sleep` has no observable effect in this model. -/
def process_set (env : Env) (st : LoopState) (set_code : String) : LoopState :=
  let st0 := { st with fetchCalls := st.fetchCalls ++ [BASE_API_URL ++ trim set_code] }
  match fetch_set_json_data env.httpGet set_code with
  | .error _ => st0
  | .ok json_content =>
    let txt_success := env.writeOk (txt_path set_code)
    let json_success := env.writeOk (json_path set_code)
    let st1 := attemptWrite env st0 (txt_path set_code) json_content
    let st2 := attemptWrite env st1 (json_path set_code) json_content
    if txt_success || json_success then
      { st2 with allSetsData := insertAL (trim set_code) json_content st2.allSetsData }
    else st2

/-- The whole per-set loop of main. -/
def loopFold (env : Env) (set_codes : List String) : LoopState :=
  set_codes.foldl (process_set env) initState

/-- The combined JSON string hand-built in main: an opening brace and
newline, then for each entry two spaces, the quoted code, a colon and
the payload, entries separated by a comma and newline, then a newline
and the closing brace. The payload is spliced in verbatim, with no
re-encoding. -/
def build_combined_json (entries : List (String × String)) : String :=
  (entries.foldl
    (fun (acc : String × Bool) p =>
      (acc.1 ++ (if acc.2 then "" else ",\n") ++ "  \"" ++ p.1 ++ "\": " ++ p.2, false))
    ("\x7b\n", true)).1 ++ "\n\x7d"

/-- The metadata report string built in main (the Rust format string
uses `\`-continuations, so the content has no indentation). -/
def metadata_content (launchTime latestSet : String) (totalSets : Nat)
    (setsList txtDir jsonDir : String) : String :=
  "FAB Card Scrapper - Script Execution Metadata\n" ++
  "=============================================\n" ++
  "Script Launch Time: " ++ launchTime ++ "\n" ++
  "Latest Set Processed: " ++ latestSet ++ "\n" ++
  "Total Sets Processed: " ++ toString totalSets ++ "\n" ++
  "Sets List: " ++ setsList ++ "\n" ++
  "Output Structure:\n" ++
  "- TXT files: " ++ txtDir ++ "/\n" ++
  "- JSON files: " ++ jsonDir ++ "/\n"

/-- `if !Path::new(dir).exists() { fs::create_dir(dir)?; }` — the error
of a failed `create_dir` propagates out of main via `?`. -/
def ensure_dir (env : Env) (dir : String) : Except String Unit :=
  if env.dirExists dir then .ok ()
  else if env.createOk dir then .ok ()
  else .error ("create_dir failed: " ++ dir)

/-- The observable outcome of one execution of main. -/
structure RunResult where
  exit : Except String Unit
  fetchCalls : List String
  writeAttempts : List (String × String)
  writesSucceeded : List (String × String)
  allSetsData : List (String × String)
  combinedContent : Option String
  metadataContent : Option String

/-- Outcome of a run aborted by a propagated error (no effects in this
model beyond the error itself). -/
def abortResult (e : String) : RunResult :=
  ⟨.error e, [], [], [], [], none, none⟩

/-- The combined JSON string the run builds, `none` when the map stayed
empty (the `!all_sets_data.is_empty()` guard): the map is iterated in the
unspecified order `env.iterOrder`. -/
def combinedStr? (env : Env) (set_codes : List String) : Option String :=
  if (loopFold env set_codes).allSetsData.isEmpty then none
  else some (build_combined_json (env.iterOrder (loopFold env set_codes).allSetsData))

/-- The metadata report string the run builds: `latest_set` is
`set_codes.last()` with fallback `"UNKNOWN"`, the total is
`all_sets_data.len()`, the list is the comma-joined input. -/
def metadataStr (env : Env) (set_codes : List String) : String :=
  metadata_content env.launchTime ((set_codes.getLast?).getD "UNKNOWN")
    (loopFold env set_codes).allSetsData.length
    (String.intercalate ", " set_codes) txt_output_dir json_output_dir

/-- Everything main does after directory setup: the per-set loop, the
combined files (only when the map is non-empty), and the metadata file.
All write failures past this point are logged, never propagated. -/
def run_loop_output (env : Env) (set_codes : List String) : RunResult :=
  let st := loopFold env set_codes
  let stc :=
    match combinedStr? env set_codes with
    | none => st
    | some combined =>
      attemptWrite env (attemptWrite env st combined_txt_path combined)
        combined_json_path combined
  let stm := attemptWrite env stc metadata_path (metadataStr env set_codes)
  ⟨.ok (), stm.fetchCalls, stm.writeAttempts, stm.writesSucceeded,
    st.allSetsData, combinedStr? env set_codes, some (metadataStr env set_codes)⟩

/-- The model of `main`: read the codes (propagating the error if the
file is missing), return `Ok` early on an empty list, create the three
output directories (each `?` propagates), then run the loop and the
output phase. -/
def run (env : Env) : RunResult :=
  match read_set_codes env.file with
  | .error e => abortResult e
  | .ok set_codes =>
    if set_codes.isEmpty then ⟨.ok (), [], [], [], [], none, none⟩
    else
      match ensure_dir env base_output_dir with
      | .error e => abortResult e
      | .ok _ =>
        match ensure_dir env txt_output_dir with
        | .error e => abortResult e
        | .ok _ =>
          match ensure_dir env json_output_dir with
          | .error e => abortResult e
          | .ok _ => run_loop_output env set_codes

/-- All three output directories either exist or can be created. -/
def dirsOk (env : Env) : Bool :=
  (env.dirExists base_output_dir || env.createOk base_output_dir) &&
  (env.dirExists txt_output_dir || env.createOk txt_output_dir) &&
  (env.dirExists json_output_dir || env.createOk json_output_dir)

theorem loadedCodes_trimmed (lines : List String) :
    ∀ c ∈ loadedCodes lines, trim c = c := by
  intro c hc
  unfold loadedCodes at hc
  obtain ⟨l, _, hl⟩ := List.mem_map.mp hc
  rw [← hl]
  exact trim_idem l

theorem loadedCodes_nonempty_mem (lines : List String) :
    ∀ c ∈ loadedCodes lines, c ≠ "" := by
  intro c hc
  unfold loadedCodes at hc
  obtain ⟨l, hl, hlc⟩ := List.mem_map.mp hc
  obtain ⟨-, hne⟩ := List.mem_filter.mp hl
  rw [← hlc]
  intro hcontra
  rw [hcontra] at hne
  simp at hne

/-! ### Lemmas about the association-list map -/

theorem lookupAL_insertAL_self (k v : String) (m : List (String × String)) :
    lookupAL k (insertAL k v m) = some v := by
  induction m with
  | nil => simp [insertAL, lookupAL]
  | cons p rest ih =>
    by_cases h : p.1 == k
    · simp [insertAL, lookupAL, h]
    · simp [insertAL, lookupAL, h, ih]

theorem length_insertAL_le (k v : String) (m : List (String × String)) :
    (insertAL k v m).length ≤ m.length + 1 := by
  induction m with
  | nil => simp [insertAL]
  | cons p rest ih =>
    by_cases h : p.1 == k
    · simp [insertAL, h]
    · simp only [insertAL]
      rw [if_neg (by simp_all)]
      simp only [List.length_cons]
      omega

theorem mem_insertAL (k v k' v' : String) (m : List (String × String))
    (h : (k, v) ∈ insertAL k' v' m) : k = k' ∨ ∃ w, (k, w) ∈ m := by
  induction m with
  | nil =>
    simp [insertAL] at h
    exact Or.inl h.1
  | cons p rest ih =>
    by_cases hp : p.1 == k'
    · simp only [insertAL, hp, if_pos] at h
      rcases List.mem_cons.mp h with h1 | h1
      · exact Or.inl (by cases h1; rfl)
      · exact Or.inr ⟨v, List.mem_cons_of_mem p h1⟩
    · simp only [insertAL, hp] at h
      rw [if_neg (by simp_all)] at h
      rcases List.mem_cons.mp h with h1 | h1
      · exact Or.inr ⟨v, by rw [← h1]; exact List.mem_cons_self _ _⟩
      · rcases ih h1 with h2 | ⟨w, h2⟩
        · exact Or.inl h2
        · exact Or.inr ⟨w, List.mem_cons_of_mem p h2⟩

/-! ### State-evolution lemmas for the loop -/

theorem attemptWrite_fetchCalls (env : Env) (st : LoopState) (path content : String) :
    (attemptWrite env st path content).fetchCalls = st.fetchCalls := by
  unfold attemptWrite
  by_cases h : env.writeOk path <;> simp [h]

theorem attemptWrite_allSetsData (env : Env) (st : LoopState) (path content : String) :
    (attemptWrite env st path content).allSetsData = st.allSetsData := by
  unfold attemptWrite
  by_cases h : env.writeOk path <;> simp [h]

theorem attemptWrite_writeAttempts (env : Env) (st : LoopState) (path content : String) :
    (attemptWrite env st path content).writeAttempts = st.writeAttempts ++ [(path, content)] := by
  unfold attemptWrite
  by_cases h : env.writeOk path <;> simp [h]

theorem attemptWrite_writesSucceeded (env : Env) (st : LoopState) (path content : String) :
    (attemptWrite env st path content).writesSucceeded =
      st.writesSucceeded ++ (if env.writeOk path then [(path, content)] else []) := by
  unfold attemptWrite
  by_cases h : env.writeOk path <;> simp [h]

/-- What one iteration appends to the write-attempt trace. -/
def attemptDelta (env : Env) (c : String) : List (String × String) :=
  match fetch_set_json_data env.httpGet c with
  | .error _ => []
  | .ok body => [(txt_path c, body), (json_path c, body)]

/-- What one iteration appends to the successful-write trace. -/
def succDelta (env : Env) (c : String) : List (String × String) :=
  match fetch_set_json_data env.httpGet c with
  | .error _ => []
  | .ok body =>
    (if env.writeOk (txt_path c) then [(txt_path c, body)] else []) ++
    (if env.writeOk (json_path c) then [(json_path c, body)] else [])

theorem process_set_fetchCalls (env : Env) (st : LoopState) (c : String) :
    (process_set env st c).fetchCalls = st.fetchCalls ++ [BASE_API_URL ++ trim c] := by
  unfold process_set
  cases hf : fetch_set_json_data env.httpGet c with
  | error e => rfl
  | ok body =>
    by_cases h : env.writeOk (txt_path c) || env.writeOk (json_path c) <;>
      simp [h, attemptWrite_fetchCalls]

theorem process_set_writeAttempts (env : Env) (st : LoopState) (c : String) :
    (process_set env st c).writeAttempts = st.writeAttempts ++ attemptDelta env c := by
  unfold process_set attemptDelta
  cases hf : fetch_set_json_data env.httpGet c with
  | error e => simp
  | ok body =>
    by_cases h : env.writeOk (txt_path c) || env.writeOk (json_path c) <;>
      simp [h, attemptWrite_writeAttempts]

theorem process_set_writesSucceeded (env : Env) (st : LoopState) (c : String) :
    (process_set env st c).writesSucceeded = st.writesSucceeded ++ succDelta env c := by
  unfold process_set succDelta
  cases hf : fetch_set_json_data env.httpGet c with
  | error e => simp
  | ok body =>
    by_cases h : env.writeOk (txt_path c) || env.writeOk (json_path c) <;>
      simp [h, attemptWrite_writesSucceeded, attemptWrite_writeAttempts, List.append_assoc]

theorem process_set_allSetsData (env : Env) (st : LoopState) (c : String) :
    (process_set env st c).allSetsData =
      match fetch_set_json_data env.httpGet c with
      | .error _ => st.allSetsData
      | .ok body =>
        if env.writeOk (txt_path c) || env.writeOk (json_path c) then
          insertAL (trim c) body st.allSetsData
        else st.allSetsData := by
  unfold process_set
  cases hf : fetch_set_json_data env.httpGet c with
  | error e => rfl
  | ok body =>
    by_cases h : env.writeOk (txt_path c) || env.writeOk (json_path c) <;>
      simp [h, attemptWrite_allSetsData]

theorem foldl_process_writeAttempts (env : Env) (l : List String) (st : LoopState) :
    (l.foldl (process_set env) st).writeAttempts =
      st.writeAttempts ++ l.flatMap (attemptDelta env) := by
  induction l generalizing st with
  | nil => simp
  | cons c rest ih =>
    simp only [List.foldl_cons, List.flatMap_cons, ih, process_set_writeAttempts,
      List.append_assoc]

theorem foldl_process_writesSucceeded (env : Env) (l : List String) (st : LoopState) :
    (l.foldl (process_set env) st).writesSucceeded =
      st.writesSucceeded ++ l.flatMap (succDelta env) := by
  induction l generalizing st with
  | nil => simp
  | cons c rest ih =>
    simp only [List.foldl_cons, List.flatMap_cons, ih, process_set_writesSucceeded,
      List.append_assoc]

theorem foldl_process_fetchCalls (env : Env) (l : List String) (st : LoopState) :
    (l.foldl (process_set env) st).fetchCalls =
      st.fetchCalls ++ l.map (fun c => BASE_API_URL ++ trim c) := by
  induction l generalizing st with
  | nil => simp
  | cons c rest ih =>
    simp only [List.foldl_cons, List.map_cons, ih, process_set_fetchCalls,
      List.append_assoc, List.singleton_append, List.cons_append, List.nil_append]

/-! ### Reducing `run` on the happy path -/

theorem ensure_dir_ok (env : Env) (d : String)
    (h : (env.dirExists d || env.createOk d) = true) :
    ensure_dir env d = .ok () := by
  unfold ensure_dir
  rcases Bool.or_eq_true_iff.mp h with h1 | h1
  · simp [h1]
  · by_cases h2 : env.dirExists d <;> simp [h1, h2]

theorem run_loop_output_exit (env : Env) (codes : List String) :
    (run_loop_output env codes).exit = .ok () := rfl

theorem run_loop_output_allSetsData (env : Env) (codes : List String) :
    (run_loop_output env codes).allSetsData = (loopFold env codes).allSetsData := rfl

theorem run_loop_output_combinedContent (env : Env) (codes : List String) :
    (run_loop_output env codes).combinedContent = combinedStr? env codes := rfl

theorem run_loop_output_metadataContent (env : Env) (codes : List String) :
    (run_loop_output env codes).metadataContent = some (metadataStr env codes) := rfl

theorem run_loop_output_fetchCalls (env : Env) (codes : List String) :
    (run_loop_output env codes).fetchCalls = (loopFold env codes).fetchCalls := by
  unfold run_loop_output
  cases h : combinedStr? env codes <;>
    simp [h, attemptWrite_fetchCalls]

theorem run_loop_output_writeAttempts (env : Env) (codes : List String) :
    (run_loop_output env codes).writeAttempts =
      (loopFold env codes).writeAttempts ++
        (match combinedStr? env codes with
         | none => []
         | some s => [(combined_txt_path, s), (combined_json_path, s)]) ++
        [(metadata_path, metadataStr env codes)] := by
  unfold run_loop_output
  cases h : combinedStr? env codes with
  | none => simp [h, attemptWrite_writeAttempts]
  | some s => simp [h, attemptWrite_writeAttempts, List.append_assoc]

theorem run_loop_output_writesSucceeded (env : Env) (codes : List String) :
    (run_loop_output env codes).writesSucceeded =
      (loopFold env codes).writesSucceeded ++
        (match combinedStr? env codes with
         | none => []
         | some s =>
           (if env.writeOk combined_txt_path then [(combined_txt_path, s)] else []) ++
           (if env.writeOk combined_json_path then [(combined_json_path, s)] else [])) ++
        (if env.writeOk metadata_path then [(metadata_path, metadataStr env codes)] else []) := by
  unfold run_loop_output
  cases h : combinedStr? env codes with
  | none => simp [h, attemptWrite_writesSucceeded]
  | some s => simp [h, attemptWrite_writesSucceeded, attemptWrite_writeAttempts, List.append_assoc]

theorem run_eq_loop_output (env : Env) (set_codes : List String)
    (hr : read_set_codes env.file = .ok set_codes)
    (hne : set_codes ≠ [])
    (hdirs : dirsOk env = true) :
    run env = run_loop_output env set_codes := by
  unfold dirsOk at hdirs
  obtain ⟨h12, h3⟩ := Bool.and_eq_true_iff.mp hdirs
  obtain ⟨h1, h2⟩ := Bool.and_eq_true_iff.mp h12
  unfold run
  rw [hr]
  simp only [List.isEmpty_eq_true]
  rw [if_neg hne, ensure_dir_ok env _ h1, ensure_dir_ok env _ h2, ensure_dir_ok env _ h3]

/-! ### Supporting lemmas for the claims -/

theorem foldl_keys_from (env : Env) (l : List String) (st : LoopState) (k v : String)
    (h : (k, v) ∈ (l.foldl (process_set env) st).allSetsData) :
    (∃ w, (k, w) ∈ st.allSetsData) ∨ ∃ c ∈ l, k = trim c := by
  induction l generalizing st with
  | nil => exact Or.inl ⟨v, h⟩
  | cons c rest ih =>
    rcases ih (process_set env st c) h with ⟨w, hw⟩ | ⟨c', hc', hk⟩
    · rw [process_set_allSetsData] at hw
      cases hfc : fetch_set_json_data env.httpGet c with
      | error e =>
        simp only [hfc] at hw
        exact Or.inl ⟨w, hw⟩
      | ok body =>
        simp only [hfc] at hw
        by_cases hwr : env.writeOk (txt_path c) || env.writeOk (json_path c)
        · rw [if_pos hwr] at hw
          rcases mem_insertAL k w (trim c) body _ hw with hk | ⟨w', hw'⟩
          · exact Or.inr ⟨c, List.mem_cons_self _ _, hk⟩
          · exact Or.inl ⟨w', hw'⟩
        · rw [if_neg hwr] at hw
          exact Or.inl ⟨w, hw⟩
    · exact Or.inr ⟨c', List.mem_cons_of_mem _ hc', hk⟩

/-- Whether one iteration of the loop contributes an entry to the
result mapping: its fetch succeeds and at least one of its writes does. -/
def iterContributes (env : Env) (c : String) : Bool :=
  match fetch_set_json_data env.httpGet c with
  | .error _ => false
  | .ok _ => env.writeOk (txt_path c) || env.writeOk (json_path c)

theorem process_set_size_le (env : Env) (st : LoopState) (c : String) :
    (process_set env st c).allSetsData.length ≤
      st.allSetsData.length + (if iterContributes env c then 1 else 0) := by
  rw [process_set_allSetsData]
  unfold iterContributes
  cases hfc : fetch_set_json_data env.httpGet c with
  | error e => simp
  | ok body =>
    by_cases hwr : env.writeOk (txt_path c) || env.writeOk (json_path c)
    · simp only [hwr, if_pos]
      exact length_insertAL_le _ _ _
    · simp only [hwr, if_neg, Bool.false_eq_true, not_false_iff]
      simp

theorem foldl_size_le (env : Env) (l : List String) (st : LoopState) :
    (l.foldl (process_set env) st).allSetsData.length ≤
      st.allSetsData.length + l.countP (iterContributes env) := by
  induction l generalizing st with
  | nil => simp
  | cons c rest ih =>
    calc (rest.foldl (process_set env) (process_set env st c)).allSetsData.length
        ≤ (process_set env st c).allSetsData.length + rest.countP (iterContributes env) :=
          ih (process_set env st c)
      _ ≤ st.allSetsData.length + (if iterContributes env c then 1 else 0) +
            rest.countP (iterContributes env) := by
          have := process_set_size_le env st c
          omega
      _ ≤ st.allSetsData.length + (c :: rest).countP (iterContributes env) := by
          rw [List.countP_cons]
          by_cases h : iterContributes env c
          · simp only [h, if_true]
            omega
          · simp only [h, if_false, Bool.false_eq_true]
            omega

theorem countP_lt_length_of_mem_false (p : α → Bool) (l : List α) (c : α)
    (hc : c ∈ l) (hp : p c = false) : l.countP p < l.length := by
  induction l with
  | nil => simp at hc
  | cons a t ih =>
    rw [List.countP_cons]
    rcases List.mem_cons.mp hc with h | h
    · subst h
      rw [hp]
      have h2 : t.countP p ≤ t.length := List.countP_le_length p
      simp only [List.length_cons, Bool.false_eq_true, if_false]
      omega
    · have := ih h
      have hle : (if p a then 1 else 0) ≤ 1 := by by_cases hpa : p a <;> simp [hpa]
      simp only [List.length_cons]
      omega

theorem perm_pair_cases {α : Type} {l : List α} {a b : α} (h : l.Perm [a, b]) :
    l = [a, b] ∨ l = [b, a] := by
  have hlen := h.length_eq
  match l, hlen with
  | [x, y], _ =>
    have hx : x ∈ [a, b] := h.subset (List.mem_cons_self _ _)
    rcases List.mem_cons.mp hx with hxa | hxb
    · subst hxa
      have hy : y = b := by simpa using List.perm_singleton.mp h.cons_inv
      exact Or.inl (by rw [hy])
    · have hxb' : x = b := by simpa using hxb
      subst hxb'
      have h' : List.Perm [x, y] [x, a] := h.trans (List.Perm.swap a x []).symm
      have hy : y = a := by simpa using List.perm_singleton.mp h'.cons_inv
      exact Or.inr (by rw [hy])

/-! ### Concrete environments used by the claim witnesses -/

/-- A run over codes `["WTR", "BAD"]` where the fetch for `WTR` succeeds
with body `"BODY"`, the fetch for `BAD` fails, and all writes and
directory operations succeed. -/
def demoEnv : Env where
  file := some ["WTR", "BAD"]
  httpGet := fun url =>
    if url == BASE_API_URL ++ "WTR" then .ok "BODY" else .error "HTTP 404"
  writeOk := fun _ => true
  dirExists := fun _ => true
  createOk := fun _ => true
  launchTime := "T"
  iterOrder := id

/-- A single-iteration environment where only the txt write succeeds. -/
def txtOnlyEnv : Env where
  file := some ["WTR"]
  httpGet := fun _ => .ok "BODY"
  writeOk := fun p => p == txt_path "WTR"
  dirExists := fun _ => true
  createOk := fun _ => true
  launchTime := "T"
  iterOrder := id

/-- An environment whose input file is missing. -/
def noFileEnv : Env where
  file := none
  httpGet := fun _ => .ok "BODY"
  writeOk := fun _ => true
  dirExists := fun _ => true
  createOk := fun _ => true
  launchTime := "T"
  iterOrder := id

/-! ### The claims -/

/-- Claim C2: for every input file whose contents consist of lines, of
which exactly N have a non-empty trim, `read_set_codes` returns `Ok`
with a list of exactly N codes, each the trimmed text of its line, in
file order; no empty string is ever an element of the result. -/
theorem claim_C2 (lines : List String) :
    read_set_codes (some lines) =
      .ok ((lines.filter (fun l => !(trim l == ""))).map trim) ∧
    ((lines.filter (fun l => !(trim l == ""))).map trim).length =
      (lines.filter (fun l => !(trim l == ""))).length ∧
    "" ∉ (lines.filter (fun l => !(trim l == ""))).map trim := by
  refine ⟨read_set_codes_some lines, by simp, ?_⟩
  intro h
  exact loadedCodes_nonempty_mem lines "" h rfl

/-- Claim C3: for a set code whose fetch succeeds, the code is inserted
into the result mapping paired with its payload if at least one of the
two writes succeeds, and the mapping is left untouched if both writes
fail. -/
theorem claim_C3 (env : Env) (st : LoopState) (c B : String)
    (hf : fetch_set_json_data env.httpGet c = .ok B) :
    ((env.writeOk (txt_path c) || env.writeOk (json_path c)) = true →
      lookupAL (trim c) (process_set env st c).allSetsData = some B) ∧
    ((env.writeOk (txt_path c) || env.writeOk (json_path c)) = false →
      (process_set env st c).allSetsData = st.allSetsData) := by
  rw [process_set_allSetsData]
  simp only [hf]
  constructor
  · intro h
    rw [if_pos h]
    exact lookupAL_insertAL_self _ _ _
  · intro h
    rw [if_neg (by simp [h])]

/-- Claim C3 witness: with the fetch succeeding and only the txt write
succeeding, the payload is still in the mapping. -/
theorem claim_C3_witness :
    lookupAL (trim "WTR") (process_set txtOnlyEnv initState "WTR").allSetsData =
      some "BODY" :=
  (claim_C3 txtOnlyEnv initState "WTR" "BODY" rfl).1 rfl

/-- Claim C6: with the input file missing, `read_set_codes` returns an
error carrying a descriptive message, main propagates it, and zero
calls to the fetcher occur. -/
theorem claim_C6 (env : Env) (h : env.file = none) :
    read_set_codes env.file = .error missingFileMsg ∧
    (run env).exit = .error missingFileMsg ∧
    (run env).fetchCalls = [] := by
  have hr : read_set_codes env.file = .error missingFileMsg := by
    rw [h]
    rfl
  have hrun : run env = abortResult missingFileMsg := by
    unfold run
    rw [hr]
  exact ⟨hr, by rw [hrun]; rfl, by rw [hrun]; rfl⟩

/-- Claim C6 witness at a concrete environment with no input file. -/
theorem claim_C6_witness :
    read_set_codes noFileEnv.file = .error missingFileMsg ∧
    (run noFileEnv).exit = .error missingFileMsg ∧
    (run noFileEnv).fetchCalls = [] :=
  claim_C6 noFileEnv rfl

/-- Claim C7: for a set code whose fetch returns body B and whose txt
write succeeds, the content written to the per-set text output file is
exactly B, with no transformation between fetch and write. -/
theorem claim_C7 (env : Env) (codes : List String) (c B : String)
    (hr : read_set_codes env.file = .ok codes)
    (hne : codes ≠ []) (hdirs : dirsOk env = true)
    (hc : c ∈ codes)
    (hf : fetch_set_json_data env.httpGet c = .ok B)
    (hw : env.writeOk (txt_path c) = true) :
    (txt_path c, B) ∈ (run env).writesSucceeded := by
  rw [run_eq_loop_output env codes hr hne hdirs, run_loop_output_writesSucceeded]
  apply List.mem_append_left
  apply List.mem_append_left
  unfold loopFold
  rw [foldl_process_writesSucceeded]
  apply List.mem_append_right
  rw [List.mem_flatMap]
  refine ⟨c, hc, ?_⟩
  unfold succDelta
  simp only [hf]
  simp [hw]

/-- Claim C7 witness: in the demo run, the txt file for `WTR` is
written with exactly the fetched body. -/
theorem claim_C7_witness :
    (txt_path "WTR", "BODY") ∈ (run demoEnv).writesSucceeded :=
  claim_C7 demoEnv ["WTR", "BAD"] "WTR" "BODY" rfl (by decide) rfl
    (by decide) rfl rfl

/-- Claim C8: for a non-empty input list, the Latest Set Processed value
in the metadata content is the positionally last set code of the input
list, for every fetch/write oracle (so regardless of which sets
succeeded). -/
theorem claim_C8 (env : Env) (codes : List String)
    (hr : read_set_codes env.file = .ok codes)
    (hne : codes ≠ [])
    (hdirs : dirsOk env = true) :
    (run env).metadataContent =
      some (metadata_content env.launchTime (codes.getLast hne)
        (run env).allSetsData.length (String.intercalate ", " codes)
        txt_output_dir json_output_dir) := by
  rw [run_eq_loop_output env codes hr hne hdirs, run_loop_output_metadataContent,
    run_loop_output_allSetsData]
  unfold metadataStr
  rw [List.getLast?_eq_getLast_of_ne_nil hne]
  rfl

/-- Claim C8 witness: in the demo run the metadata names `BAD` as the
latest set even though its fetch failed (only one set is counted). -/
theorem claim_C8_witness :
    (run demoEnv).metadataContent =
      some (metadata_content "T" "BAD" 1 "WTR, BAD" txt_output_dir json_output_dir) :=
  claim_C8 demoEnv ["WTR", "BAD"] rfl (by decide) rfl

/-- Claim C9: per set code, the txt write and the json write are passed
the same fetched payload, and both combined files are written with the
identical combined string. -/
theorem claim_C9 (env : Env) (codes : List String)
    (hr : read_set_codes env.file = .ok codes)
    (hne : codes ≠ []) (hdirs : dirsOk env = true) :
    (∀ c B, c ∈ codes → fetch_set_json_data env.httpGet c = .ok B →
      (txt_path c, B) ∈ (run env).writeAttempts ∧
      (json_path c, B) ∈ (run env).writeAttempts) ∧
    (∀ s, (run env).combinedContent = some s →
      (combined_txt_path, s) ∈ (run env).writeAttempts ∧
      (combined_json_path, s) ∈ (run env).writeAttempts) := by
  rw [run_eq_loop_output env codes hr hne hdirs, run_loop_output_writeAttempts,
    run_loop_output_combinedContent]
  constructor
  · intro c B hc hf
    constructor <;>
    · apply List.mem_append_left
      apply List.mem_append_left
      unfold loopFold
      rw [foldl_process_writeAttempts]
      apply List.mem_append_right
      rw [List.mem_flatMap]
      refine ⟨c, hc, ?_⟩
      unfold attemptDelta
      simp only [hf]
      simp
  · intro s hs
    rw [hs]
    constructor <;>
    · apply List.mem_append_left
      apply List.mem_append_right
      simp

/-- Claim C9 witness: in the demo run both per-set writes for `WTR`
carry the same fetched body. -/
theorem claim_C9_witness :
    (txt_path "WTR", "BODY") ∈ (run demoEnv).writeAttempts ∧
    (json_path "WTR", "BODY") ∈ (run demoEnv).writeAttempts :=
  (claim_C9 demoEnv ["WTR", "BAD"] rfl (by decide) rfl).1 "WTR" "BODY"
    (by decide) rfl

/-- Claim C10: at every point of the run (after processing any input
list split `pre ++ suff`), every key of the result mapping is the
trimmed form of some code of the loaded list, and — the loader having
already trimmed — equals that loaded code itself. -/
theorem claim_C10 (env : Env) (codes pre suff : List String)
    (hr : read_set_codes env.file = .ok codes)
    (hsplit : codes = pre ++ suff) :
    ∀ k v, (k, v) ∈ (loopFold env pre).allSetsData →
      ∃ c, c ∈ codes ∧ k = trim c ∧ trim c = c := by
  intro k v hkv
  rcases foldl_keys_from env pre initState k v hkv with ⟨w, hw⟩ | ⟨c, hc, hk⟩
  · simp [initState] at hw
  · have hcc : c ∈ codes := hsplit ▸ List.mem_append_left suff hc
    have htc : trim c = c := by
      cases hfile : env.file with
      | none =>
        rw [hfile] at hr
        simp [read_set_codes] at hr
      | some lines =>
        rw [hfile, read_set_codes_some] at hr
        have h2 : loadedCodes lines = codes := by injection hr
        exact loadedCodes_trimmed lines c (h2 ▸ hcc)
    exact ⟨c, hcc, hk, htc⟩

/-- Claim C10 witness: the key `WTR` of the demo run's final mapping
comes from the input list and is its own trim. -/
theorem claim_C10_witness :
    ∃ c, c ∈ (["WTR", "BAD"] : List String) ∧ "WTR" = trim c ∧ trim c = c :=
  claim_C10 demoEnv ["WTR", "BAD"] ["WTR", "BAD"] [] rfl rfl "WTR" "BODY"
    (by decide)

/-- Claim C4: the Total Sets Processed value in the metadata content is
the size of the result mapping, and whenever some input code's
iteration contributed nothing (fetch failed, or both writes failed),
that size is strictly smaller than the input list length. -/
theorem claim_C4 (env : Env) (codes : List String)
    (hr : read_set_codes env.file = .ok codes)
    (hne : codes ≠ []) (hdirs : dirsOk env = true) :
    (run env).metadataContent =
      some (metadata_content env.launchTime ((codes.getLast?).getD "UNKNOWN")
        ((run env).allSetsData.length) (String.intercalate ", " codes)
        txt_output_dir json_output_dir) ∧
    (∀ c ∈ codes, iterContributes env c = false →
      (run env).allSetsData.length < codes.length) := by
  constructor
  · rw [run_eq_loop_output env codes hr hne hdirs, run_loop_output_metadataContent,
      run_loop_output_allSetsData]
    rfl
  · intro c hc hcf
    rw [run_eq_loop_output env codes hr hne hdirs, run_loop_output_allSetsData]
    have h1 : (codes.foldl (process_set env) initState).allSetsData.length ≤
        codes.countP (iterContributes env) := by
      simpa [initState] using foldl_size_le env codes initState
    have h2 := countP_lt_length_of_mem_false (iterContributes env) codes c hc hcf
    unfold loopFold
    omega

/-- Claim C4 witness: in the demo run one fetch fails, so the mapping
is strictly smaller than the input list. -/
theorem claim_C4_witness :
    (run demoEnv).allSetsData.length < (["WTR", "BAD"] : List String).length :=
  (claim_C4 demoEnv ["WTR", "BAD"] rfl (by decide) rfl).2 "BAD" (by decide) rfl

/-- Environment where the input file is readable but creating the base
output directory fails. -/
def noDirEnv : Env where
  file := some ["WTR"]
  httpGet := fun _ => .ok "BODY"
  writeOk := fun _ => true
  dirExists := fun _ => false
  createOk := fun _ => false
  launchTime := "T"
  iterOrder := id

/-- Claim C5 counterexample: the input file is present and readable,
yet main returns an error, because `fs::create_dir(...)?` propagates a
directory-creation failure. -/
theorem claim_C5_counterexample :
    noDirEnv.file = some ["WTR"] ∧
    (run noDirEnv).exit =
      Except.error "create_dir failed: script_generated_card_data" :=
  ⟨rfl, rfl⟩

/-- Claim C5 as amended: if the input file is readable and each of the
three output directories exists or can be created, main returns Ok,
even if every fetch and write fails. -/
theorem claim_C5_amended (env : Env) (lines : List String)
    (hfile : env.file = some lines)
    (hdirs : dirsOk env = true) :
    (run env).exit = .ok () := by
  by_cases hemp : loadedCodes lines = []
  · unfold run
    rw [hfile, read_set_codes_some, hemp]
    rfl
  · have hr : read_set_codes env.file = .ok (loadedCodes lines) := by
      rw [hfile]
      exact read_set_codes_some lines
    rw [run_eq_loop_output env (loadedCodes lines) hr hemp hdirs]
    rfl

/-- Environment with readable input, failing fetches, and creatable
output directories. -/
def createOkEnv : Env where
  file := some ["WTR"]
  httpGet := fun _ => .error "down"
  writeOk := fun _ => true
  dirExists := fun _ => false
  createOk := fun _ => true
  launchTime := "T"
  iterOrder := id

/-- Claim C5 (amended) witness: a run whose only fetch fails still
exits Ok once the directories can be created. -/
theorem claim_C5_amended_witness : (run createOkEnv).exit = .ok () :=
  claim_C5_amended createOkEnv ["WTR"] rfl rfl

/-- Payload returned for `WTR` in the end-to-end scenario. -/
def c1Body1 : String := "\x7b\"a\":1\x7d"

/-- Payload returned for `ARC` in the end-to-end scenario. -/
def c1Body2 : String := "\x7b\"b\":2\x7d"

/-- The end-to-end environment of the spec's scenario: input `WTR` and
`ARC`, both fetches succeed with the two bodies, every write and
directory operation succeeds; the HashMap iteration order is the
parameter. -/
def c1Env (ord : List (String × String) → List (String × String)) : Env where
  file := some ["WTR", "ARC"]
  httpGet := fun url =>
    if url == BASE_API_URL ++ "WTR" then .ok c1Body1
    else if url == BASE_API_URL ++ "ARC" then .ok c1Body2
    else .error "unexpected URL"
  writeOk := fun _ => true
  dirExists := fun _ => true
  createOk := fun _ => true
  launchTime := "T1"
  iterOrder := ord

/-- The expected combined output with the ARC entry first. -/
def c1CombinedARCFirst : String :=
  "\x7b\n  \"ARC\": \x7b\"b\":2\x7d,\n  \"WTR\": \x7b\"a\":1\x7d\n\x7d"

/-- The expected combined output with the WTR entry first. -/
def c1CombinedWTRFirst : String :=
  "\x7b\n  \"WTR\": \x7b\"a\":1\x7d,\n  \"ARC\": \x7b\"b\":2\x7d\n\x7d"

/-- The scenario's metadata content before the total-count line. -/
def c1MetaHead : String :=
  "FAB Card Scrapper - Script Execution Metadata\n" ++
  "=============================================\n" ++
  "Script Launch Time: T1\nLatest Set Processed: ARC\n"

/-- The scenario's metadata content after the total-count line. -/
def c1MetaTail : String :=
  "Sets List: WTR, ARC\nOutput Structure:\n" ++
  "- TXT files: script_generated_card_data/txt/\n" ++
  "- JSON files: script_generated_card_data/json/\n"

set_option maxHeartbeats 1000000 in
set_option maxRecDepth 16384 in
/-- Claim C1: in the end-to-end scenario (input `WTR`, `ARC`, both
fetches succeed with bodies spliced verbatim, all writes succeed), for
every HashMap iteration order the combined output is exactly the
enclosing object with the two quoted keys in one of the two orders, and
the metadata content reports Total Sets Processed: 2. -/
theorem claim_C1 (ord : List (String × String) → List (String × String))
    (hperm : ∀ m, (ord m).Perm m) :
    ((run (c1Env ord)).combinedContent = some c1CombinedARCFirst ∨
     (run (c1Env ord)).combinedContent = some c1CombinedWTRFirst) ∧
    (run (c1Env ord)).metadataContent =
      some (c1MetaHead ++ "Total Sets Processed: 2\n" ++ c1MetaTail) := by
  have hr : read_set_codes (c1Env ord).file = .ok ["WTR", "ARC"] := rfl
  have hmap : (loopFold (c1Env ord) ["WTR", "ARC"]).allSetsData =
      [("WTR", c1Body1), ("ARC", c1Body2)] := rfl
  constructor
  · have hc : (run (c1Env ord)).combinedContent =
        some (build_combined_json (ord [("WTR", c1Body1), ("ARC", c1Body2)])) := by
      rw [run_eq_loop_output (c1Env ord) ["WTR", "ARC"] hr (by decide) rfl,
        run_loop_output_combinedContent]
      unfold combinedStr?
      rw [hmap]
      rfl
    rcases perm_pair_cases (hperm [("WTR", c1Body1), ("ARC", c1Body2)]) with h | h
    · exact Or.inr (by rw [hc, h]; rfl)
    · exact Or.inl (by rw [hc, h]; rfl)
  · rw [run_eq_loop_output (c1Env ord) ["WTR", "ARC"] hr (by decide) rfl,
      run_loop_output_metadataContent]
    unfold metadataStr
    rw [hmap]
    rfl

/-- Claim C1 witness at the identity iteration order. -/
theorem claim_C1_witness :
    ((run (c1Env id)).combinedContent = some c1CombinedARCFirst ∨
     (run (c1Env id)).combinedContent = some c1CombinedWTRFirst) ∧
    (run (c1Env id)).metadataContent =
      some (c1MetaHead ++ "Total Sets Processed: 2\n" ++ c1MetaTail) :=
  claim_C1 id (fun m => List.Perm.refl m)

end FabScrapper
